import Mathlib

/-!
Verification development for the `BackgroundColor` stack module
(`@bacons/expo-background-color`, `src/index.tsx`).

The module keeps a process-wide stack of color requests (`propsStack`), a
mutable default entry (`defaultProps`), a pair of externally-subscribed
listener handles (`appearanceListener`, `appStateListener`), and a coalesced
deferred recompute scheduled through `setImmediate`/`clearImmediate`
(`updateImmediate`).  We embed this as explicit state passing over `SysState`.

Design of the embedding:
* A JS color value `ColorValue | ThemedColorValue` (possibly `undefined` at
  runtime) becomes `ColorReq`: `plain v` is a plain value (`v = none` models
  `undefined`/`null`), `themed lite dk` is an object carrying both a `light`
  and a `dark` key whose values may themselves be `undefined` (`none`).
* Entry identity (JS object identity used by `indexOf`) becomes a `Nat` id
  drawn from a monotone counter `nextId`; each `createStackEntry` consumes a
  fresh id.
* The ambient theme (`Appearance.getColorScheme()`) is supplied as an
  argument to every operation that reads it.
* Calls into the external capability `SystemUI.setBackgroundColorAsync` are
  logged in order in `calls`.
* The pending `setImmediate` callback is the flag `updatePending`; a
  mutation's `clearImmediate`+`setImmediate` pair sets it, and `flushUpdate`
  models the scheduled callback firing at the end of the synchronous burst.
* `crashed` records an out-of-bounds `propsStack[propsStack.length - 1]`
  access inside a listener (a thrown `TypeError` in JS).
-/

/-- The `ColorSchemeName` values `'light' | 'dark' | null/undefined`.
The source only ever tests `scheme === 'dark'`. -/
inductive ColorScheme where
  | light
  | dark
  | unspecified
deriving DecidableEq

/-- A color request: either a plain `ColorValue` (with `none` standing for a
nullish runtime value) or a themed object carrying both `light` and `dark`
keys, each key's value possibly nullish. -/
inductive ColorReq where
  | plain (v : Option String)
  | themed (lite dk : Option String)
deriving DecidableEq

/-- Source `isThemedColor`: `!!color && typeof color !== 'string' && ('light'
in color) && ('dark' in color)`.  In the embedding a `themed` value is
exactly an object carrying both keys. -/
def isThemedColor : ColorReq → Bool
  | .themed _ _ => true
  | .plain _ => false

/-- The JS test `x != null` (loose inequality against null/undefined) applied
to a request: only a nullish plain value fails it; a themed object is always
non-null. -/
def ColorReq.isPresent : ColorReq → Bool
  | .plain none => false
  | _ => true

/-- JS truthiness `if (color)` applied to a request: nullish values and the
empty string are falsy; any object is truthy. -/
def ColorReq.isTruthy : ColorReq → Bool
  | .plain none => false
  | .plain (some v) => !(v == "")
  | .themed _ _ => true

/-- Source `setColorAsync` minus the external call itself: the concrete color
string handed to `SystemUI.setBackgroundColorAsync`.  Themed: `scheme ===
'dark' ? color.dark ?? '#000' : color.light ?? '#fff'`; plain: `color ??
'#fff'` (note `??` is nullish coalescing, not a truthiness test). -/
def resolveColor (scheme : ColorScheme) : ColorReq → String
  | .themed lite dk => if scheme = ColorScheme.dark then dk.getD "#000" else lite.getD "#fff"
  | .plain v => v.getD "#fff"

/-- A stack entry as produced by `createStackEntry`: one color request plus
the identity of the underlying JS object. -/
structure Entry where
  id : Nat
  color : ColorReq
deriving DecidableEq

/-- The ids of the entries of a stack, in stack order. -/
def entryIds (l : List Entry) : List Nat := l.map Entry.id

/-- Source `mergePropsStack`: `reduce` over the stack starting from
`Object.assign({}, defaultValues)` (a fresh copy of the default entry),
overwriting the accumulator's `color` with `cur.color` whenever
`cur.color != null`.  The only enumerable key of an entry is `color`. -/
def mergePropsStack (propsStack : List Entry) (defaultColor : ColorReq) : ColorReq :=
  propsStack.foldl (fun prev cur => if cur.color.isPresent then cur.color else prev) defaultColor

/-- `propsStack.indexOf(entry)` followed by `splice(index, 1)` when found:
remove the first entry with the given identity, if any. -/
def spliceOut (h : Nat) : List Entry → List Entry
  | [] => []
  | e :: rest => if e.id = h then rest else e :: spliceOut h rest

/-- `propsStack.indexOf(entry)` followed by `propsStack[index] = newEntry`
when found: overwrite the first entry with the given identity, if any. -/
def replaceAt (h : Nat) (ne : Entry) : List Entry → List Entry
  | [] => []
  | e :: rest => if e.id = h then ne :: rest else e :: replaceAt h ne rest

/-- The module-level mutable state of `src/index.tsx`, plus a log of
external effects (`calls`, attach/detach counters, `crashed`). -/
@[ext]
structure SysState where
  propsStack : List Entry
  defaultColor : ColorReq
  updatePending : Bool
  appearanceListener : Bool
  appStateListener : Bool
  aAttach : Nat
  aDetach : Nat
  sAttach : Nat
  sDetach : Nat
  calls : List String
  crashed : Bool
  nextId : Nat
deriving DecidableEq

/-- Module load: empty stack, `defaultProps = createStackEntry({color:
'#fff'})`, no listeners, no pending immediate. -/
def initState : SysState :=
  { propsStack := []
    defaultColor := ColorReq.plain (some "#fff")
    updatePending := false
    appearanceListener := false
    appStateListener := false
    aAttach := 0
    aDetach := 0
    sAttach := 0
    sDetach := 0
    calls := []
    crashed := false
    nextId := 0 }

/-- Source `BackgroundColor._updatePropsStack`: `clearImmediate` the pending
callback and `setImmediate` a fresh one.  In the embedding this is simply
"a recompute is pending". -/
def scheduleUpdate (s : SysState) : SysState :=
  { s with updatePending := true }

/-- The scheduled `setImmediate` callback firing: merge the stack over a copy
of the default entry and, when the merged color is truthy (`if (color)`),
call the external setter with `resolveColor` of it at the ambient scheme.
When nothing is pending there is no callback to run. -/
def flushUpdate (scheme : ColorScheme) (s : SysState) : SysState :=
  if s.updatePending then
    if (mergePropsStack s.propsStack s.defaultColor).isTruthy then
      { s with updatePending := false
               calls := s.calls ++ [resolveColor scheme (mergePropsStack s.propsStack s.defaultColor)] }
    else { s with updatePending := false }
  else s

/-- Source `BackgroundColor.pushStackEntry`: append a fresh entry, attach
each listener if its handle is not currently held, schedule the coalesced
recompute, and return the new entry (its identity). -/
def pushStackEntry (c : ColorReq) (s : SysState) : SysState × Nat :=
  let entry : Entry := { id := s.nextId, color := c }
  let s1 := { s with propsStack := s.propsStack ++ [entry], nextId := s.nextId + 1 }
  let s2 :=
    if s1.appearanceListener then s1
    else { s1 with appearanceListener := true, aAttach := s1.aAttach + 1 }
  let s3 :=
    if s2.appStateListener then s2
    else { s2 with appStateListener := true, sAttach := s2.sAttach + 1 }
  (scheduleUpdate s3, entry.id)

/-- The tail of `popStackEntry`: when the stack is empty, remove and null out
whichever listener handles are held. -/
def detachIfEmpty (s : SysState) : SysState :=
  if s.propsStack.isEmpty then
    let s1 :=
      if s.appearanceListener then
        { s with appearanceListener := false, aDetach := s.aDetach + 1 }
      else s
    if s1.appStateListener then
      { s1 with appStateListener := false, sDetach := s1.sDetach + 1 }
    else s1
  else s

/-- Source `BackgroundColor.popStackEntry`: splice out the entry with the
given identity if present, detach both listeners when the stack is now
empty, and schedule the coalesced recompute. -/
def popStackEntry (h : Nat) (s : SysState) : SysState :=
  scheduleUpdate (detachIfEmpty { s with propsStack := spliceOut h s.propsStack })

/-- Source `BackgroundColor.replaceStackEntry`: build a fresh entry, overwrite
the slot of the entry with the given identity when found (otherwise the new
entry is not inserted), schedule the recompute, and return the new entry. -/
def replaceStackEntry (h : Nat) (c : ColorReq) (s : SysState) : SysState × Nat :=
  let ne : Entry := { id := s.nextId, color := c }
  (scheduleUpdate
      { s with propsStack := replaceAt h ne s.propsStack, nextId := s.nextId + 1 },
    ne.id)

/-- Source `BackgroundColor.setColor`: overwrite `defaultProps.color` and call
the external setter immediately (no scheduling, no cancellation). -/
def setColor (scheme : ColorScheme) (c : ColorReq) (s : SysState) : SysState :=
  { s with defaultColor := c, calls := s.calls ++ [resolveColor scheme c] }

/-- The appearance-change listener body: when a handle is held, call the
external setter with `propsStack[propsStack.length - 1].color` resolved at
the scheme delivered by the event.  On an empty stack that subscript is
`undefined` and `.color` throws; `crashed` records this. -/
def notifyAppearance (scheme : ColorScheme) (s : SysState) : SysState :=
  if s.appearanceListener then
    match s.propsStack.getLast? with
    | some e => { s with calls := s.calls ++ [resolveColor scheme e.color] }
    | none => { s with crashed := true }
  else s

/-- The app-state-change listener body: identical to the appearance listener
except that the scheme is read from `Appearance.getColorScheme()` (supplied
here as the ambient scheme argument). -/
def notifyAppState (scheme : ColorScheme) (s : SysState) : SysState :=
  if s.appStateListener then
    match s.propsStack.getLast? with
    | some e => { s with calls := s.calls ++ [resolveColor scheme e.color] }
    | none => { s with crashed := true }
  else s

/-- The events of the embedding: the three exported stack mutators, the
deferred recompute firing, `setColor`, and the two external notifications. -/
inductive Op where
  | push (c : ColorReq)
  | pop (h : Nat)
  | replace (h : Nat) (c : ColorReq)
  | flush (scheme : ColorScheme)
  | setDefault (scheme : ColorScheme) (c : ColorReq)
  | themeChange (scheme : ColorScheme)
  | appStateChange (scheme : ColorScheme)
deriving DecidableEq

/-- Step function: apply one event to the module state. -/
def applyOp (s : SysState) : Op → SysState
  | .push c => (pushStackEntry c s).1
  | .pop h => popStackEntry h s
  | .replace h c => (replaceStackEntry h c s).1
  | .flush scheme => flushUpdate scheme s
  | .setDefault scheme c => setColor scheme c s
  | .themeChange scheme => notifyAppearance scheme s
  | .appStateChange scheme => notifyAppState scheme s

/-- Run a sequence of events from module load. -/
def runOps (ops : List Op) : SysState := ops.foldl applyOp initState

/-- An op is one of the three stack mutators (push/pop/replace). -/
def Op.isMutation : Op → Bool
  | .push _ => true
  | .pop _ => true
  | .replace _ _ => true
  | _ => false

/-- The request carried by a push or replace is non-nullish (always the case
for arguments well-typed against `Props`, whose `color` field is required). -/
def Op.reqPresent : Op → Bool
  | .push c => c.isPresent
  | .replace _ c => c.isPresent
  | _ => true

/-! ### List lemmas about `spliceOut` and `replaceAt` -/

theorem spliceOut_sublist (h : Nat) (l : List Entry) : List.Sublist (spliceOut h l) l := by
  induction l with
  | nil => simp [spliceOut]
  | cons e rest ih =>
    unfold spliceOut
    by_cases he : e.id = h
    · simp [he]
    · simpa [he] using ih.cons₂ e

theorem spliceOut_of_not_mem {h : Nat} {l : List Entry} (hm : h ∉ entryIds l) :
    spliceOut h l = l := by
  induction l with
  | nil => rfl
  | cons e rest ih =>
    simp only [entryIds, List.map_cons, List.mem_cons] at hm
    push_neg at hm
    have hne : ¬(e.id = h) := fun hc => hm.1 hc.symm
    unfold spliceOut
    simp only [if_neg hne]
    rw [ih (by simpa [entryIds] using hm.2)]

theorem not_mem_entryIds_spliceOut {h : Nat} {l : List Entry}
    (hnd : (entryIds l).Nodup) : h ∉ entryIds (spliceOut h l) := by
  induction l with
  | nil => simp [spliceOut, entryIds]
  | cons e rest ih =>
    simp only [entryIds, List.map_cons, List.nodup_cons] at hnd
    unfold spliceOut
    by_cases he : e.id = h
    · simp only [if_pos he]
      intro hc
      exact hnd.1 (he ▸ hc)
    · simp only [if_neg he, entryIds, List.map_cons, List.mem_cons]
      rintro (hc | hc)
      · exact he hc.symm
      · exact ih hnd.2 hc

theorem replaceAt_of_not_mem {h : Nat} {ne : Entry} {l : List Entry}
    (hm : h ∉ entryIds l) : replaceAt h ne l = l := by
  induction l with
  | nil => rfl
  | cons e rest ih =>
    simp only [entryIds, List.map_cons, List.mem_cons] at hm
    push_neg at hm
    have hne : ¬(e.id = h) := fun hc => hm.1 hc.symm
    unfold replaceAt
    simp only [if_neg hne]
    rw [ih (by simpa [entryIds] using hm.2)]

theorem replaceAt_length (h : Nat) (ne : Entry) (l : List Entry) :
    (replaceAt h ne l).length = l.length := by
  induction l with
  | nil => rfl
  | cons e rest ih =>
    unfold replaceAt
    by_cases he : e.id = h <;> simp [he, ih]

theorem mem_replaceAt {h : Nat} {ne x : Entry} {l : List Entry}
    (hx : x ∈ replaceAt h ne l) : x = ne ∨ x ∈ l := by
  induction l with
  | nil => simp [replaceAt] at hx
  | cons e rest ih =>
    unfold replaceAt at hx
    by_cases he : e.id = h
    · simp only [if_pos he, List.mem_cons] at hx
      rcases hx with hx | hx
      · exact Or.inl hx
      · exact Or.inr (List.mem_cons_of_mem _ hx)
    · simp only [if_neg he, List.mem_cons] at hx
      rcases hx with hx | hx
      · exact Or.inr (hx ▸ List.mem_cons_self _ _)
      · rcases ih hx with hx | hx
        · exact Or.inl hx
        · exact Or.inr (List.mem_cons_of_mem _ hx)

theorem replaceAt_nodup {h : Nat} {ne : Entry} {l : List Entry}
    (hnd : (entryIds l).Nodup) (hfresh : ∀ e ∈ l, e.id ≠ ne.id) :
    (entryIds (replaceAt h ne l)).Nodup := by
  induction l with
  | nil => simp [replaceAt, entryIds]
  | cons e rest ih =>
    simp only [entryIds, List.map_cons, List.nodup_cons] at hnd
    unfold replaceAt
    by_cases he : e.id = h
    · simp only [if_pos he, entryIds, List.map_cons, List.nodup_cons]
      constructor
      · intro hc
        simp only [entryIds, List.mem_map] at hc
        obtain ⟨x, hx, hxid⟩ := hc
        exact hfresh x (List.mem_cons_of_mem _ hx) hxid
      · exact hnd.2
    · simp only [if_neg he, entryIds, List.map_cons, List.nodup_cons]
      refine ⟨?_, ih hnd.2 (fun x hx => hfresh x (List.mem_cons_of_mem _ hx))⟩
      intro hc
      simp only [entryIds, List.mem_map] at hc
      obtain ⟨x, hx, hxid⟩ := hc
      rcases mem_replaceAt hx with hx | hx
      · exact hfresh e (List.mem_cons_self _ _) (hx ▸ hxid).symm
      · exact hnd.1 (by simpa [entryIds] using ⟨x, hx, hxid⟩)

theorem spliceOut_ne_nil_of {h : Nat} {l : List Entry}
    (hne : spliceOut h l ≠ []) : l ≠ [] := by
  intro hl
  subst hl
  exact hne rfl

/-! ### Normal forms of the three mutators -/

theorem pushStackEntry_eq (c : ColorReq) (s : SysState) :
    (pushStackEntry c s).1 =
      { s with propsStack := s.propsStack ++ [{ id := s.nextId, color := c }]
               nextId := s.nextId + 1
               appearanceListener := true
               appStateListener := true
               aAttach := s.aAttach + (if s.appearanceListener then 0 else 1)
               sAttach := s.sAttach + (if s.appStateListener then 0 else 1)
               updatePending := true } := by
  unfold pushStackEntry scheduleUpdate
  by_cases h1 : s.appearanceListener <;> by_cases h2 : s.appStateListener <;> simp [h1, h2]

theorem pushStackEntry_handle (c : ColorReq) (s : SysState) :
    (pushStackEntry c s).2 = s.nextId := rfl

theorem popStackEntry_eq (h : Nat) (s : SysState) :
    popStackEntry h s =
      { s with propsStack := spliceOut h s.propsStack
               appearanceListener := s.appearanceListener && !(spliceOut h s.propsStack).isEmpty
               appStateListener := s.appStateListener && !(spliceOut h s.propsStack).isEmpty
               aDetach := s.aDetach +
                 (if (spliceOut h s.propsStack).isEmpty && s.appearanceListener then 1 else 0)
               sDetach := s.sDetach +
                 (if (spliceOut h s.propsStack).isEmpty && s.appStateListener then 1 else 0)
               updatePending := true } := by
  unfold popStackEntry detachIfEmpty scheduleUpdate
  by_cases he : (spliceOut h s.propsStack).isEmpty <;>
    by_cases h1 : s.appearanceListener <;>
      by_cases h2 : s.appStateListener <;>
        simp [he, h1, h2]

theorem replaceStackEntry_eq (h : Nat) (c : ColorReq) (s : SysState) :
    (replaceStackEntry h c s).1 =
      { s with propsStack := replaceAt h { id := s.nextId, color := c } s.propsStack
               nextId := s.nextId + 1
               updatePending := true } := rfl

theorem replaceStackEntry_handle (h : Nat) (c : ColorReq) (s : SysState) :
    (replaceStackEntry h c s).2 = s.nextId := rfl

theorem replaceAt_isEmpty (h : Nat) (ne : Entry) (l : List Entry) :
    (replaceAt h ne l).isEmpty = l.isEmpty := by
  cases l with
  | nil => rfl
  | cons e rest =>
    unfold replaceAt
    by_cases he : e.id = h <;> simp [he]

/-! ### The reachable-state invariant -/

/-- Invariant satisfied by every state reachable from module load: entry ids
are bounded by the fresh-id counter (hence handles returned by a mutator are
new), ids are pairwise distinct, each listener handle is held exactly when
the stack is non-empty, attach/detach counts balance, and no listener has
ever crashed on an out-of-bounds top-of-stack access. -/
structure StateInv (s : SysState) : Prop where
  bounded : ∀ e ∈ s.propsStack, e.id < s.nextId
  nodup : (entryIds s.propsStack).Nodup
  appearOk : s.appearanceListener = true ↔ s.propsStack ≠ []
  stateOk : s.appStateListener = true ↔ s.propsStack ≠ []
  aCount : s.aAttach = s.aDetach + (if s.propsStack.isEmpty then 0 else 1)
  sCount : s.sAttach = s.sDetach + (if s.propsStack.isEmpty then 0 else 1)
  crashOk : s.crashed = false

theorem stateInv_init : StateInv initState := by
  constructor <;> simp [initState, entryIds]

theorem stateInv_push (c : ColorReq) {s : SysState} (hs : StateInv s) : StateInv (pushStackEntry c s).1 := by
  obtain ⟨hb, hn, ha, hst, hac, hsc, hcr⟩ := hs
  rw [pushStackEntry_eq]
  constructor
  · intro e he
    simp only [List.mem_append, List.mem_singleton] at he
    rcases he with he | he
    · exact Nat.lt_succ_of_lt (hb e he)
    · simp [he]
  · simp only [entryIds, List.map_append, List.map_cons, List.map_nil]
    rw [List.nodup_append]
    refine ⟨hn, List.nodup_singleton _, ?_⟩
    intro x hx
    simp only [List.mem_singleton]
    intro hc
    subst hc
    simp only [entryIds, List.mem_map] at hx
    obtain ⟨e, he, hid⟩ := hx
    exact absurd hid (Nat.ne_of_lt (hb e he))
  · simp
  · simp
  · by_cases h1 : s.appearanceListener = true
    · have hne : s.propsStack ≠ [] := ha.mp h1
      have : s.propsStack.isEmpty = false := by simpa [List.isEmpty_iff] using hne
      simp only [h1, if_true, this, if_false] at hac ⊢
      simp [hac]
    · have h1' : s.appearanceListener = false := by
        cases hq : s.appearanceListener
        · rfl
        · exact absurd hq h1
      have hemp : s.propsStack = [] := by
        by_contra hne
        exact h1 (ha.mpr hne)
      simp only [h1', hemp] at hac ⊢
      simp at hac
      simp [hac]
  · by_cases h2 : s.appStateListener = true
    · have hne : s.propsStack ≠ [] := hst.mp h2
      have : s.propsStack.isEmpty = false := by simpa [List.isEmpty_iff] using hne
      simp only [h2, if_true, this, if_false] at hsc ⊢
      simp [hsc]
    · have h2' : s.appStateListener = false := by
        cases hq : s.appStateListener
        · rfl
        · exact absurd hq h2
      have hemp : s.propsStack = [] := by
        by_contra hne
        exact h2 (hst.mpr hne)
      simp only [h2', hemp] at hsc ⊢
      simp at hsc
      simp [hsc]
  · exact hcr

theorem stateInv_pop (h : Nat) {s : SysState} (hs : StateInv s) : StateInv (popStackEntry h s) := by
  obtain ⟨hb, hn, ha, hst, hac, hsc, hcr⟩ := hs
  rw [popStackEntry_eq]
  have hsub := spliceOut_sublist h s.propsStack
  constructor
  · intro e he
    exact hb e (hsub.mem he)
  · exact hn.sublist (hsub.map _)
  · by_cases he : (spliceOut h s.propsStack).isEmpty
    · have : spliceOut h s.propsStack = [] := by simpa [List.isEmpty_iff] using he
      simp [he, this]
    · have hne : spliceOut h s.propsStack ≠ [] := by simpa [List.isEmpty_iff] using he
      have h1 : s.appearanceListener = true := ha.mpr (spliceOut_ne_nil_of hne)
      simp [he, h1, hne]
  · by_cases he : (spliceOut h s.propsStack).isEmpty
    · have : spliceOut h s.propsStack = [] := by simpa [List.isEmpty_iff] using he
      simp [he, this]
    · have hne : spliceOut h s.propsStack ≠ [] := by simpa [List.isEmpty_iff] using he
      have h2 : s.appStateListener = true := hst.mpr (spliceOut_ne_nil_of hne)
      simp [he, h2, hne]
  · by_cases he : (spliceOut h s.propsStack).isEmpty
    · simp only [he, if_true, Bool.true_and]
      by_cases h1 : s.appearanceListener = true
      · have hne : s.propsStack ≠ [] := ha.mp h1
        have : s.propsStack.isEmpty = false := by simpa [List.isEmpty_iff] using hne
        simp only [this, if_false] at hac
        simp [h1, hac]
      · have h1' : s.appearanceListener = false := by
          cases hq : s.appearanceListener
          · rfl
          · exact absurd hq h1
        have hemp : s.propsStack = [] := by
          by_contra hne
          exact h1 (ha.mpr hne)
        simp only [hemp] at hac
        simp at hac
        simp [h1', hac]
    · have hne : spliceOut h s.propsStack ≠ [] := by simpa [List.isEmpty_iff] using he
      have hone : s.propsStack ≠ [] := spliceOut_ne_nil_of hne
      have : s.propsStack.isEmpty = false := by simpa [List.isEmpty_iff] using hone
      simp only [this, if_false] at hac
      simp [he, hac]
  · by_cases he : (spliceOut h s.propsStack).isEmpty
    · simp only [he, if_true, Bool.true_and]
      by_cases h2 : s.appStateListener = true
      · have hne : s.propsStack ≠ [] := hst.mp h2
        have : s.propsStack.isEmpty = false := by simpa [List.isEmpty_iff] using hne
        simp only [this, if_false] at hsc
        simp [h2, hsc]
      · have h2' : s.appStateListener = false := by
          cases hq : s.appStateListener
          · rfl
          · exact absurd hq h2
        have hemp : s.propsStack = [] := by
          by_contra hne
          exact h2 (hst.mpr hne)
        simp only [hemp] at hsc
        simp at hsc
        simp [h2', hsc]
    · have hne : spliceOut h s.propsStack ≠ [] := by simpa [List.isEmpty_iff] using he
      have hone : s.propsStack ≠ [] := spliceOut_ne_nil_of hne
      have : s.propsStack.isEmpty = false := by simpa [List.isEmpty_iff] using hone
      simp only [this, if_false] at hsc
      simp [he, hsc]
  · exact hcr

theorem stateInv_replace (h : Nat) (c : ColorReq) {s : SysState} (hs : StateInv s) :
    StateInv (replaceStackEntry h c s).1 := by
  obtain ⟨hb, hn, ha, hst, hac, hsc, hcr⟩ := hs
  rw [replaceStackEntry_eq]
  have hlen : (replaceAt h { id := s.nextId, color := c } s.propsStack).isEmpty
      = s.propsStack.isEmpty := replaceAt_isEmpty _ _ _
  have hnil : replaceAt h { id := s.nextId, color := c } s.propsStack = [] ↔ s.propsStack = [] := by
    rw [← List.isEmpty_iff, ← List.isEmpty_iff, hlen]
  constructor
  · intro e he
    rcases mem_replaceAt he with he | he
    · simp [he]
    · exact Nat.lt_succ_of_lt (hb e he)
  · exact replaceAt_nodup hn (fun e he => Nat.ne_of_lt (hb e he))
  · rw [ha]
    constructor
    · intro hne hc
      exact hne (hnil.mp hc)
    · intro hne hc
      exact hne (hnil.mpr hc)
  · rw [hst]
    constructor
    · intro hne hc
      exact hne (hnil.mp hc)
    · intro hne hc
      exact hne (hnil.mpr hc)
  · simpa [hlen] using hac
  · simpa [hlen] using hsc
  · exact hcr

theorem stateInv_congr {s t : SysState}
    (h1 : t.propsStack = s.propsStack)
    (h2 : t.appearanceListener = s.appearanceListener)
    (h3 : t.appStateListener = s.appStateListener)
    (h4 : t.aAttach = s.aAttach) (h5 : t.aDetach = s.aDetach)
    (h6 : t.sAttach = s.sAttach) (h7 : t.sDetach = s.sDetach)
    (h8 : t.crashed = s.crashed) (h9 : t.nextId = s.nextId)
    (hs : StateInv s) : StateInv t := by
  obtain ⟨hb, hn, ha, hst, hac, hsc, hcr⟩ := hs
  constructor
  · rw [h1, h9]
    exact hb
  · rw [h1]
    exact hn
  · rw [h1, h2]
    exact ha
  · rw [h1, h3]
    exact hst
  · rw [h1, h4, h5]
    exact hac
  · rw [h1, h6, h7]
    exact hsc
  · rw [h8]
    exact hcr

theorem flushUpdate_fields (scheme : ColorScheme) (s : SysState) :
    (flushUpdate scheme s).propsStack = s.propsStack ∧
    (flushUpdate scheme s).defaultColor = s.defaultColor ∧
    (flushUpdate scheme s).appearanceListener = s.appearanceListener ∧
    (flushUpdate scheme s).appStateListener = s.appStateListener ∧
    (flushUpdate scheme s).aAttach = s.aAttach ∧
    (flushUpdate scheme s).aDetach = s.aDetach ∧
    (flushUpdate scheme s).sAttach = s.sAttach ∧
    (flushUpdate scheme s).sDetach = s.sDetach ∧
    (flushUpdate scheme s).crashed = s.crashed ∧
    (flushUpdate scheme s).nextId = s.nextId := by
  unfold flushUpdate
  split
  · split <;> simp
  · simp

theorem notifyAppearance_fields (scheme : ColorScheme) (s : SysState) :
    (notifyAppearance scheme s).propsStack = s.propsStack ∧
    (notifyAppearance scheme s).defaultColor = s.defaultColor ∧
    (notifyAppearance scheme s).updatePending = s.updatePending ∧
    (notifyAppearance scheme s).appearanceListener = s.appearanceListener ∧
    (notifyAppearance scheme s).appStateListener = s.appStateListener ∧
    (notifyAppearance scheme s).aAttach = s.aAttach ∧
    (notifyAppearance scheme s).aDetach = s.aDetach ∧
    (notifyAppearance scheme s).sAttach = s.sAttach ∧
    (notifyAppearance scheme s).sDetach = s.sDetach ∧
    (notifyAppearance scheme s).nextId = s.nextId := by
  unfold notifyAppearance
  split
  · cases hy : s.propsStack.getLast? <;> simp [hy]
  · simp

theorem notifyAppState_fields (scheme : ColorScheme) (s : SysState) :
    (notifyAppState scheme s).propsStack = s.propsStack ∧
    (notifyAppState scheme s).defaultColor = s.defaultColor ∧
    (notifyAppState scheme s).updatePending = s.updatePending ∧
    (notifyAppState scheme s).appearanceListener = s.appearanceListener ∧
    (notifyAppState scheme s).appStateListener = s.appStateListener ∧
    (notifyAppState scheme s).aAttach = s.aAttach ∧
    (notifyAppState scheme s).aDetach = s.aDetach ∧
    (notifyAppState scheme s).sAttach = s.sAttach ∧
    (notifyAppState scheme s).sDetach = s.sDetach ∧
    (notifyAppState scheme s).nextId = s.nextId := by
  unfold notifyAppState
  split
  · cases hy : s.propsStack.getLast? <;> simp [hy]
  · simp

theorem stateInv_flush (scheme : ColorScheme) {s : SysState} (hs : StateInv s) :
    StateInv (flushUpdate scheme s) := by
  obtain ⟨f1, f2, f3, f4, f5, f6, f7, f8, f9, f10⟩ := flushUpdate_fields scheme s
  exact stateInv_congr f1 f3 f4 f5 f6 f7 f8 f9 f10 hs

theorem stateInv_setColor (scheme : ColorScheme) (c : ColorReq) {s : SysState}
    (hs : StateInv s) : StateInv (setColor scheme c s) := by
  apply stateInv_congr _ _ _ _ _ _ _ _ _ hs <;> rfl

theorem stateInv_notifyAppearance (scheme : ColorScheme) {s : SysState} (hs : StateInv s) :
    StateInv (notifyAppearance scheme s) := by
  unfold notifyAppearance
  by_cases h1 : s.appearanceListener = true
  · have hne : s.propsStack ≠ [] := hs.appearOk.mp h1
    obtain ⟨y, hy⟩ := Option.isSome_iff_exists.mp ((List.getLast?_isSome).mpr hne)
    simp only [h1, if_true, hy]
    apply stateInv_congr _ _ _ _ _ _ _ _ _ hs <;> simp [h1]
  · have h1' : s.appearanceListener = false := by
      cases hq : s.appearanceListener
      · rfl
      · exact absurd hq h1
    simp only [h1', Bool.false_eq_true, if_false]
    exact hs

theorem stateInv_notifyAppState (scheme : ColorScheme) {s : SysState} (hs : StateInv s) :
    StateInv (notifyAppState scheme s) := by
  unfold notifyAppState
  by_cases h2 : s.appStateListener = true
  · have hne : s.propsStack ≠ [] := hs.stateOk.mp h2
    obtain ⟨y, hy⟩ := Option.isSome_iff_exists.mp ((List.getLast?_isSome).mpr hne)
    simp only [h2, if_true, hy]
    apply stateInv_congr _ _ _ _ _ _ _ _ _ hs <;> simp [h2]
  · have h2' : s.appStateListener = false := by
      cases hq : s.appStateListener
      · rfl
      · exact absurd hq h2
    simp only [h2', Bool.false_eq_true, if_false]
    exact hs

theorem stateInv_applyOp {s : SysState} (hs : StateInv s) (op : Op) :
    StateInv (applyOp s op) := by
  cases op with
  | push c => exact stateInv_push c hs
  | pop h => exact stateInv_pop h hs
  | replace h c => exact stateInv_replace h c hs
  | flush scheme => exact stateInv_flush scheme hs
  | setDefault scheme c => exact stateInv_setColor scheme c hs
  | themeChange scheme => exact stateInv_notifyAppearance scheme hs
  | appStateChange scheme => exact stateInv_notifyAppState scheme hs

theorem stateInv_foldl (ops : List Op) :
    ∀ s : SysState, StateInv s → StateInv (ops.foldl applyOp s) := by
  induction ops with
  | nil => exact fun s hs => hs
  | cons op rest ih => exact fun s hs => ih _ (stateInv_applyOp hs op)

theorem stateInv_run (ops : List Op) : StateInv (runOps ops) :=
  stateInv_foldl ops initState stateInv_init

/-! ### Non-nullish requests and the merge characterization -/

/-- All entries currently on the stack carry a non-nullish request.  This is
automatic for callers well-typed against `Props` (whose `color` field is
required and non-optional). -/
def EntriesPresent (s : SysState) : Prop :=
  ∀ e ∈ s.propsStack, e.color.isPresent = true

theorem entriesPresent_init : EntriesPresent initState := by
  intro e he
  simp [initState] at he

theorem entriesPresent_applyOp {s : SysState} {op : Op}
    (hp : EntriesPresent s) (hop : op.reqPresent = true) :
    EntriesPresent (applyOp s op) := by
  cases op with
  | push c =>
    show EntriesPresent (pushStackEntry c s).1
    rw [pushStackEntry_eq]
    intro e he
    simp only [List.mem_append, List.mem_singleton] at he
    rcases he with he | he
    · exact hp e he
    · subst he
      exact hop
  | pop h =>
    show EntriesPresent (popStackEntry h s)
    rw [popStackEntry_eq]
    intro e he
    exact hp e ((spliceOut_sublist h s.propsStack).mem he)
  | replace h c =>
    show EntriesPresent (replaceStackEntry h c s).1
    rw [replaceStackEntry_eq]
    intro e he
    rcases mem_replaceAt he with he | he
    · subst he
      exact hop
    · exact hp e he
  | flush scheme =>
    show EntriesPresent (flushUpdate scheme s)
    intro e he
    rw [(flushUpdate_fields scheme s).1] at he
    exact hp e he
  | setDefault scheme c =>
    exact fun e he => hp e he
  | themeChange scheme =>
    show EntriesPresent (notifyAppearance scheme s)
    intro e he
    rw [(notifyAppearance_fields scheme s).1] at he
    exact hp e he
  | appStateChange scheme =>
    show EntriesPresent (notifyAppState scheme s)
    intro e he
    rw [(notifyAppState_fields scheme s).1] at he
    exact hp e he

theorem entriesPresent_run (ops : List Op) (hops : ∀ op ∈ ops, op.reqPresent = true) :
    EntriesPresent (runOps ops) := by
  suffices h : ∀ s : SysState, EntriesPresent s → EntriesPresent (ops.foldl applyOp s) from
    h initState entriesPresent_init
  induction ops with
  | nil => exact fun s hs => hs
  | cons op rest ih =>
    intro s hs
    exact ih (fun o ho => hops o (List.mem_cons_of_mem _ ho)) _
      (entriesPresent_applyOp hs (hops op (List.mem_cons_self _ _)))

theorem mergePropsStack_eq_getLast (stack : List Entry) (d : ColorReq)
    (hp : ∀ e ∈ stack, e.color.isPresent = true) :
    mergePropsStack stack d = (stack.getLast?.map Entry.color).getD d := by
  induction stack generalizing d with
  | nil => rfl
  | cons e rest ih =>
    have he : e.color.isPresent = true := hp e (List.mem_cons_self _ _)
    have hstep : mergePropsStack (e :: rest) d = mergePropsStack rest e.color := by
      simp [mergePropsStack, he]
    rw [hstep, ih e.color (fun x hx => hp x (List.mem_cons_of_mem _ hx))]
    cases rest with
    | nil => rfl
    | cons r rs =>
      obtain ⟨y, hy⟩ := Option.isSome_iff_exists.mp
        ((List.getLast?_isSome).mpr (List.cons_ne_nil r rs))
      rw [List.getLast?_cons_cons, hy]
      rfl

/-! ### Claims -/

/-- C1: for every sequence of push/pop/replace (and any other) operations
from module load, the effective color computed by the deferred recompute —
`mergePropsStack` of the props stack over the default entry — equals the
request of the last entry of the stack (the most recently pushed slot still
present), or the default entry's request when the stack is empty.  The
hypothesis states that every pushed/replaced request is non-nullish, which
is forced by the `Props` type (`color` is a required field). -/
theorem C1_effectiveColor_last (ops : List Op)
    (hops : ∀ op ∈ ops, op.reqPresent = true) :
    mergePropsStack (runOps ops).propsStack (runOps ops).defaultColor =
      ((runOps ops).propsStack.getLast?.map Entry.color).getD (runOps ops).defaultColor :=
  mergePropsStack_eq_getLast _ _ (entriesPresent_run ops hops)

/-- Witness for C1 at the spec's own scenario: push a themed pair, push a
plain value, pop the first handle. -/
theorem C1_effectiveColor_last_witness :
    (∀ op ∈ [Op.push (ColorReq.themed (some "#fff") (some "#000")),
        Op.push (ColorReq.plain (some "#fff000")), Op.pop 0], op.reqPresent = true) ∧
    mergePropsStack
        (runOps [Op.push (ColorReq.themed (some "#fff") (some "#000")),
          Op.push (ColorReq.plain (some "#fff000")), Op.pop 0]).propsStack
        (runOps [Op.push (ColorReq.themed (some "#fff") (some "#000")),
          Op.push (ColorReq.plain (some "#fff000")), Op.pop 0]).defaultColor =
      ((runOps [Op.push (ColorReq.themed (some "#fff") (some "#000")),
          Op.push (ColorReq.plain (some "#fff000")), Op.pop 0]).propsStack.getLast?.map
            Entry.color).getD
        (runOps [Op.push (ColorReq.themed (some "#fff") (some "#000")),
          Op.push (ColorReq.plain (some "#fff000")), Op.pop 0]).defaultColor :=
  ⟨by decide, C1_effectiveColor_last _ (by decide)⟩

/-- C5 counterexample: the claim says a plain request falls back to `#fff`
when "absent/falsy", but the source uses nullish coalescing (`color ??
'#fff'`), so the falsy-but-present empty string is passed through unchanged,
not replaced by `#fff`. -/
theorem C5_counterexample :
    resolveColor ColorScheme.light (ColorReq.plain (some "")) = "" ∧
    resolveColor ColorScheme.light (ColorReq.plain (some "")) ≠ "#fff" := by
  constructor
  · rfl
  · decide

/-- C5 amended: for every theme and request, a themed pair resolves to its
`dark` value when the theme is dark (falling back to `#000` when that value
is absent) and to its `light` value otherwise (falling back to `#fff` when
absent); a plain value resolves to itself, with the `#fff` fallback applying
only when it is absent (nullish) — a present falsy value such as `""` is
returned unchanged.  The spec's three concrete cases hold. -/
theorem C5_resolve_semantics :
    (∀ (scheme : ColorScheme) (lite dk : Option String),
      resolveColor scheme (ColorReq.themed lite dk) =
        if scheme = ColorScheme.dark then dk.getD "#000" else lite.getD "#fff") ∧
    (∀ (scheme : ColorScheme) (v : Option String),
      resolveColor scheme (ColorReq.plain v) = v.getD "#fff") ∧
    resolveColor ColorScheme.dark (ColorReq.themed (some "#fff") (some "#000")) = "#000" ∧
    resolveColor ColorScheme.light (ColorReq.themed (some "#fff") (some "#000")) = "#fff" ∧
    resolveColor ColorScheme.dark (ColorReq.themed (some "#fff") none) = "#000" ∧
    (∀ scheme : ColorScheme, resolveColor scheme (ColorReq.plain none) = "#fff") :=
  ⟨fun _ _ _ => rfl, fun _ _ => rfl, rfl, rfl, rfl, fun _ => rfl⟩

/-- C6: popping a handle that is not on the stack (already popped or never
inserted) is a silent no-op on the stack: `popStackEntry` is total (no
error) and leaves the entry sequence unchanged. -/
theorem C6_pop_missing_noop (s : SysState) (h : Nat)
    (hnm : h ∉ entryIds s.propsStack) :
    (popStackEntry h s).propsStack = s.propsStack := by
  rw [popStackEntry_eq]
  exact spliceOut_of_not_mem hnm

/-- Witness for C6: popping the never-issued handle 5 on the freshly loaded
module leaves the (empty) stack unchanged. -/
theorem C6_pop_missing_noop_witness :
    (5 ∉ entryIds initState.propsStack) ∧
    (popStackEntry 5 initState).propsStack = initState.propsStack :=
  ⟨by decide, C6_pop_missing_noop initState 5 (by decide)⟩

/-- C9: no operation other than `setColor` ever changes the default entry's
request: push/pop/replace, the deferred recompute (which merges into a fresh
copy of the default, `Object.assign`), and both notification listeners all
preserve `defaultProps.color`; `setColor` overwrites it with its argument. -/
theorem C9_default_entry_frame (s : SysState) (op : Op) :
    (applyOp s op).defaultColor =
      (match op with
        | Op.setDefault _ c => c
        | _ => s.defaultColor) := by
  cases op with
  | push c =>
    show (pushStackEntry c s).1.defaultColor = s.defaultColor
    rw [pushStackEntry_eq]
  | pop h =>
    show (popStackEntry h s).defaultColor = s.defaultColor
    rw [popStackEntry_eq]
  | replace h c =>
    show (replaceStackEntry h c s).1.defaultColor = s.defaultColor
    rw [replaceStackEntry_eq]
  | flush scheme => exact (flushUpdate_fields scheme s).2.1
  | setDefault scheme c => rfl
  | themeChange scheme => exact (notifyAppearance_fields scheme s).2.1
  | appStateChange scheme => exact (notifyAppState_fields scheme s).2.1

/-- C10: `setColor` overwrites the default entry's request and synchronously
appends exactly one external call with the resolved new default — even when
the stack is non-empty (the state `s` is arbitrary) — while leaving the
stack and the pending deferred recompute untouched (it neither goes through
nor cancels the coalescing scheduler). -/
theorem C10_setColor_immediate (s : SysState) (scheme : ColorScheme) (c : ColorReq) :
    (setColor scheme c s).defaultColor = c ∧
    (setColor scheme c s).calls = s.calls ++ [resolveColor scheme c] ∧
    (setColor scheme c s).updatePending = s.updatePending ∧
    (setColor scheme c s).propsStack = s.propsStack ∧
    applyOp s (Op.setDefault scheme c) = setColor scheme c s :=
  ⟨rfl, rfl, rfl, rfl, rfl⟩

/-! ### Mutation bursts (C2) -/

theorem applyOp_mutation_calls {s : SysState} {op : Op} (hm : op.isMutation = true) :
    (applyOp s op).calls = s.calls := by
  cases op with
  | push c =>
    show (pushStackEntry c s).1.calls = s.calls
    rw [pushStackEntry_eq]
  | pop h =>
    show (popStackEntry h s).calls = s.calls
    rw [popStackEntry_eq]
  | replace h c =>
    show (replaceStackEntry h c s).1.calls = s.calls
    rw [replaceStackEntry_eq]
  | flush scheme => simp [Op.isMutation] at hm
  | setDefault scheme c => simp [Op.isMutation] at hm
  | themeChange scheme => simp [Op.isMutation] at hm
  | appStateChange scheme => simp [Op.isMutation] at hm

theorem applyOp_mutation_pending {s : SysState} {op : Op} (hm : op.isMutation = true) :
    (applyOp s op).updatePending = true := by
  cases op with
  | push c =>
    show (pushStackEntry c s).1.updatePending = true
    rw [pushStackEntry_eq]
  | pop h =>
    show (popStackEntry h s).updatePending = true
    rw [popStackEntry_eq]
  | replace h c =>
    show (replaceStackEntry h c s).1.updatePending = true
    rw [replaceStackEntry_eq]
  | flush scheme => simp [Op.isMutation] at hm
  | setDefault scheme c => simp [Op.isMutation] at hm
  | themeChange scheme => simp [Op.isMutation] at hm
  | appStateChange scheme => simp [Op.isMutation] at hm

theorem foldl_mutations_calls (muts : List Op) :
    ∀ s : SysState, (∀ m ∈ muts, m.isMutation = true) →
      (muts.foldl applyOp s).calls = s.calls := by
  induction muts with
  | nil => exact fun s _ => rfl
  | cons op rest ih =>
    intro s hm
    rw [List.foldl_cons, ih _ (fun m hmem => hm m (List.mem_cons_of_mem _ hmem)),
      applyOp_mutation_calls (hm op (List.mem_cons_self _ _))]

theorem foldl_mutations_pending (muts : List Op) :
    ∀ s : SysState, (∀ m ∈ muts, m.isMutation = true) → s.updatePending = true →
      (muts.foldl applyOp s).updatePending = true := by
  induction muts with
  | nil => exact fun s _ hp => hp
  | cons op rest ih =>
    intro s hm _
    exact ih _ (fun m hmem => hm m (List.mem_cons_of_mem _ hmem))
      (applyOp_mutation_pending (hm op (List.mem_cons_self _ _)))

theorem flushUpdate_of_pending {s : SysState} (scheme : ColorScheme)
    (hp : s.updatePending = true) :
    (flushUpdate scheme s).calls =
      s.calls ++
        (if (mergePropsStack s.propsStack s.defaultColor).isTruthy then
          [resolveColor scheme (mergePropsStack s.propsStack s.defaultColor)]
        else []) := by
  unfold flushUpdate
  rw [if_pos hp]
  by_cases ht : (mergePropsStack s.propsStack s.defaultColor).isTruthy <;> simp [ht]

/-- C2 counterexample: one stack mutation within a synchronous burst, whose
merged effective color is the (falsy) empty string, produces zero external
color-setting calls when the deferred recompute runs — not exactly one as
the claim states (`_updatePropsStack` guards the call with `if (color)`). -/
theorem C2_counterexample :
    (runOps [Op.push (ColorReq.plain (some "")), Op.flush ColorScheme.light]).calls = [] := by
  decide

/-- C2 amended: for every starting state and non-empty list of stack
mutations (any mix of push/pop/replace) performed in one synchronous burst:
the mutations themselves make no external call, every mutation leaves the
single deferred recompute (re)scheduled (cancelling and replacing any
pending one — there is only one pending slot), and when the deferred
recompute fires it makes exactly one external call resolved from the state
after the last mutation — provided the merged effective color is truthy; if
that color is falsy (the empty string), it makes no call. -/
theorem C2_burst_coalescing (s : SysState) (muts : List Op) (scheme : ColorScheme)
    (hne : muts ≠ []) (hmut : ∀ m ∈ muts, m.isMutation = true) :
    (muts.foldl applyOp s).calls = s.calls ∧
    (muts.foldl applyOp s).updatePending = true ∧
    (flushUpdate scheme (muts.foldl applyOp s)).calls =
      s.calls ++
        (if (mergePropsStack (muts.foldl applyOp s).propsStack
              (muts.foldl applyOp s).defaultColor).isTruthy then
          [resolveColor scheme
            (mergePropsStack (muts.foldl applyOp s).propsStack
              (muts.foldl applyOp s).defaultColor)]
        else []) := by
  have hcalls : (muts.foldl applyOp s).calls = s.calls := foldl_mutations_calls muts s hmut
  have hpend : (muts.foldl applyOp s).updatePending = true := by
    cases muts with
    | nil => exact absurd rfl hne
    | cons op rest =>
      rw [List.foldl_cons]
      exact foldl_mutations_pending rest _
        (fun m hmem => hmut m (List.mem_cons_of_mem _ hmem))
        (applyOp_mutation_pending (hmut op (List.mem_cons_self _ _)))
  refine ⟨hcalls, hpend, ?_⟩
  rw [flushUpdate_of_pending scheme hpend, hcalls]

/-- Witness for C2 (amended): a two-mutation burst (push then replace) on the
freshly loaded module, flushed at the light theme. -/
theorem C2_burst_coalescing_witness :
    ([Op.push (ColorReq.plain (some "#abc")),
        Op.replace 0 (ColorReq.plain (some "#def"))] ≠ ([] : List Op)) ∧
    (∀ m ∈ [Op.push (ColorReq.plain (some "#abc")),
        Op.replace 0 (ColorReq.plain (some "#def"))], m.isMutation = true) ∧
    (([Op.push (ColorReq.plain (some "#abc")),
        Op.replace 0 (ColorReq.plain (some "#def"))].foldl applyOp initState).calls
        = initState.calls ∧
      ([Op.push (ColorReq.plain (some "#abc")),
        Op.replace 0 (ColorReq.plain (some "#def"))].foldl applyOp initState).updatePending
        = true ∧
      (flushUpdate ColorScheme.light
          ([Op.push (ColorReq.plain (some "#abc")),
            Op.replace 0 (ColorReq.plain (some "#def"))].foldl applyOp initState)).calls =
        initState.calls ++
          (if (mergePropsStack
                ([Op.push (ColorReq.plain (some "#abc")),
                  Op.replace 0 (ColorReq.plain (some "#def"))].foldl applyOp
                    initState).propsStack
                ([Op.push (ColorReq.plain (some "#abc")),
                  Op.replace 0 (ColorReq.plain (some "#def"))].foldl applyOp
                    initState).defaultColor).isTruthy then
            [resolveColor ColorScheme.light
              (mergePropsStack
                ([Op.push (ColorReq.plain (some "#abc")),
                  Op.replace 0 (ColorReq.plain (some "#def"))].foldl applyOp
                    initState).propsStack
                ([Op.push (ColorReq.plain (some "#abc")),
                  Op.replace 0 (ColorReq.plain (some "#def"))].foldl applyOp
                    initState).defaultColor)]
          else []) ) :=
  ⟨by decide, by decide,
    C2_burst_coalescing initState _ ColorScheme.light (by decide) (by decide)⟩

/-! ### Disconnected handles (C3) and listener lifecycle (C4) -/

theorem nextId_not_mem {s : SysState} (hs : StateInv s) :
    s.nextId ∉ entryIds s.propsStack := by
  intro hc
  simp only [entryIds, List.mem_map] at hc
  obtain ⟨e, he, hid⟩ := hc
  exact absurd hid (Nat.ne_of_lt (hs.bounded e he))

/-- C3: replacing a handle that is not on the stack (already popped or never
inserted) does not insert the new entry and leaves the stack unchanged, yet
returns a fresh, stack-disconnected handle; a subsequent pop of that
returned handle — or another replace presented with it — is again a no-op on
the stack. -/
theorem C3_replace_missing_handle (ops : List Op) (h : Nat) (c c2 : ColorReq)
    (hnm : h ∉ entryIds (runOps ops).propsStack) :
    (replaceStackEntry h c (runOps ops)).1.propsStack = (runOps ops).propsStack ∧
    (replaceStackEntry h c (runOps ops)).2 ∉
      entryIds (replaceStackEntry h c (runOps ops)).1.propsStack ∧
    (popStackEntry (replaceStackEntry h c (runOps ops)).2
        (replaceStackEntry h c (runOps ops)).1).propsStack = (runOps ops).propsStack ∧
    (replaceStackEntry (replaceStackEntry h c (runOps ops)).2 c2
        (replaceStackEntry h c (runOps ops)).1).1.propsStack = (runOps ops).propsStack := by
  have hinv := stateInv_run ops
  have hstack : (replaceStackEntry h c (runOps ops)).1.propsStack = (runOps ops).propsStack := by
    rw [replaceStackEntry_eq]
    exact replaceAt_of_not_mem hnm
  have hfresh : (replaceStackEntry h c (runOps ops)).2 ∉
      entryIds (replaceStackEntry h c (runOps ops)).1.propsStack := by
    rw [replaceStackEntry_handle, hstack]
    exact nextId_not_mem hinv
  refine ⟨hstack, hfresh, ?_, ?_⟩
  · rw [popStackEntry_eq]
    show spliceOut _ _ = _
    rw [hstack] at hfresh ⊢
    rw [spliceOut_of_not_mem hfresh]
  · rw [replaceStackEntry_eq]
    show replaceAt _ _ _ = _
    rw [hstack] at hfresh ⊢
    rw [replaceAt_of_not_mem hfresh]

/-- Witness for C3: replacing the never-issued handle 7 on a one-entry stack
leaves the stack unchanged and yields a disconnected handle. -/
theorem C3_replace_missing_handle_witness :
    (7 ∉ entryIds (runOps [Op.push (ColorReq.plain (some "#abc"))]).propsStack) ∧
    ((replaceStackEntry 7 (ColorReq.plain (some "#def"))
        (runOps [Op.push (ColorReq.plain (some "#abc"))])).1.propsStack =
      (runOps [Op.push (ColorReq.plain (some "#abc"))]).propsStack ∧
      (replaceStackEntry 7 (ColorReq.plain (some "#def"))
          (runOps [Op.push (ColorReq.plain (some "#abc"))])).2 ∉
        entryIds (replaceStackEntry 7 (ColorReq.plain (some "#def"))
          (runOps [Op.push (ColorReq.plain (some "#abc"))])).1.propsStack ∧
      (popStackEntry (replaceStackEntry 7 (ColorReq.plain (some "#def"))
            (runOps [Op.push (ColorReq.plain (some "#abc"))])).2
          (replaceStackEntry 7 (ColorReq.plain (some "#def"))
            (runOps [Op.push (ColorReq.plain (some "#abc"))])).1).propsStack =
        (runOps [Op.push (ColorReq.plain (some "#abc"))]).propsStack ∧
      (replaceStackEntry (replaceStackEntry 7 (ColorReq.plain (some "#def"))
            (runOps [Op.push (ColorReq.plain (some "#abc"))])).2 (ColorReq.plain (some "#123"))
          (replaceStackEntry 7 (ColorReq.plain (some "#def"))
            (runOps [Op.push (ColorReq.plain (some "#abc"))])).1).1.propsStack =
        (runOps [Op.push (ColorReq.plain (some "#abc"))]).propsStack) :=
  ⟨by decide,
    C3_replace_missing_handle [Op.push (ColorReq.plain (some "#abc"))] 7
      (ColorReq.plain (some "#def")) (ColorReq.plain (some "#123")) (by decide)⟩

/-- C4: in every reachable state, each of the two listener handles is held
exactly when the stack is non-empty, attach and detach counts balance so
that at most one listener pair is ever active (`attach = detach + 1` while
non-empty, `attach = detach` while empty); moreover a push attaches (counts
one external subscribe per listener) exactly when no handle is held — i.e.
when the stack was empty — and a pop detaches exactly when a handle is held
and the splice drained the stack to empty. -/
theorem C4_listener_lifecycle (ops : List Op) (h : Nat) (c : ColorReq) :
    ((runOps ops).appearanceListener = true ↔ (runOps ops).propsStack ≠ []) ∧
    ((runOps ops).appStateListener = true ↔ (runOps ops).propsStack ≠ []) ∧
    ((runOps ops).aAttach =
      (runOps ops).aDetach + (if (runOps ops).propsStack.isEmpty then 0 else 1)) ∧
    ((runOps ops).sAttach =
      (runOps ops).sDetach + (if (runOps ops).propsStack.isEmpty then 0 else 1)) ∧
    ((pushStackEntry c (runOps ops)).1.aAttach =
      (runOps ops).aAttach + (if (runOps ops).appearanceListener then 0 else 1)) ∧
    ((pushStackEntry c (runOps ops)).1.sAttach =
      (runOps ops).sAttach + (if (runOps ops).appStateListener then 0 else 1)) ∧
    ((popStackEntry h (runOps ops)).aDetach =
      (runOps ops).aDetach +
        (if (spliceOut h (runOps ops).propsStack).isEmpty
              && (runOps ops).appearanceListener then 1 else 0)) ∧
    ((popStackEntry h (runOps ops)).sDetach =
      (runOps ops).sDetach +
        (if (spliceOut h (runOps ops).propsStack).isEmpty
              && (runOps ops).appStateListener then 1 else 0)) := by
  obtain ⟨hb, hn, ha, hst, hac, hsc, hcr⟩ := stateInv_run ops
  refine ⟨ha, hst, hac, hsc, ?_, ?_, ?_, ?_⟩
  · rw [pushStackEntry_eq]
  · rw [pushStackEntry_eq]
  · rw [popStackEntry_eq]
  · rw [popStackEntry_eq]

/-! ### Pop idempotence (C7) and the notification path (C8) -/

theorem popStackEntry_eq_self {s : SysState} {h : Nat}
    (hnm : h ∉ entryIds s.propsStack)
    (hpend : s.updatePending = true)
    (hla : s.propsStack.isEmpty = true → s.appearanceListener = false)
    (hls : s.propsStack.isEmpty = true → s.appStateListener = false) :
    popStackEntry h s = s := by
  rw [popStackEntry_eq, spliceOut_of_not_mem hnm]
  refine SysState.ext rfl rfl ?_ ?_ ?_ rfl ?_ rfl ?_ rfl rfl rfl
  · exact hpend.symm
  · show (s.appearanceListener && !s.propsStack.isEmpty) = s.appearanceListener
    cases hq : s.propsStack.isEmpty
    · simp
    · simp [hla hq]
  · show (s.appStateListener && !s.propsStack.isEmpty) = s.appStateListener
    cases hq : s.propsStack.isEmpty
    · simp
    · simp [hls hq]
  · show s.aDetach + (if s.propsStack.isEmpty && s.appearanceListener then 1 else 0) = s.aDetach
    cases hq : s.propsStack.isEmpty
    · simp
    · simp [hla hq]
  · show s.sDetach + (if s.propsStack.isEmpty && s.appStateListener then 1 else 0) = s.sDetach
    cases hq : s.propsStack.isEmpty
    · simp
    · simp [hls hq]

/-- C7: popping the same handle twice is idempotent in the strongest sense:
in any reachable state, the full module state after `pop h; pop h` — stack,
listener handles, attach/detach counts, scheduled recompute, and the
sequence of external color-setting calls — equals the state after a single
`pop h`. -/
theorem C7_pop_idempotent (ops : List Op) (h : Nat) :
    popStackEntry h (popStackEntry h (runOps ops)) = popStackEntry h (runOps ops) := by
  have hinv := stateInv_run ops
  have hstack1 : (popStackEntry h (runOps ops)).propsStack =
      spliceOut h (runOps ops).propsStack := by
    rw [popStackEntry_eq]
  have hnm : h ∉ entryIds (popStackEntry h (runOps ops)).propsStack := by
    rw [hstack1]
    exact not_mem_entryIds_spliceOut hinv.nodup
  have hpend : (popStackEntry h (runOps ops)).updatePending = true := by
    rw [popStackEntry_eq]
  have hla : (popStackEntry h (runOps ops)).propsStack.isEmpty = true →
      (popStackEntry h (runOps ops)).appearanceListener = false := by
    intro hq
    rw [hstack1] at hq
    rw [popStackEntry_eq]
    show ((runOps ops).appearanceListener
        && !(spliceOut h (runOps ops).propsStack).isEmpty) = false
    rw [hq]
    simp
  have hls : (popStackEntry h (runOps ops)).propsStack.isEmpty = true →
      (popStackEntry h (runOps ops)).appStateListener = false := by
    intro hq
    rw [hstack1] at hq
    rw [popStackEntry_eq]
    show ((runOps ops).appStateListener
        && !(spliceOut h (runOps ops).propsStack).isEmpty) = false
    rw [hq]
    simp
  exact popStackEntry_eq_self hnm hpend hla hls

/-- C8: whenever a theme-change or app-foreground notification fires while
the listener handles are held, the stack is non-empty, the top-of-stack
access `propsStack[propsStack.length - 1]` is in bounds (no crash), and the
external setter is invoked immediately — the listener appends exactly one
call resolved from the delivered scheme and the last stack entry's request,
leaving the coalescing scheduler's pending flag untouched. -/
theorem C8_notification_applies_top (ops : List Op) (scheme : ColorScheme)
    (hl : (runOps ops).appearanceListener = true) :
    (runOps ops).propsStack ≠ [] ∧
    (runOps ops).propsStack.getLast?.isSome = true ∧
    notifyAppearance scheme (runOps ops) =
      { runOps ops with calls := (runOps ops).calls ++
          ((runOps ops).propsStack.getLast?.map fun e => resolveColor scheme e.color).toList } ∧
    notifyAppState scheme (runOps ops) =
      { runOps ops with calls := (runOps ops).calls ++
          ((runOps ops).propsStack.getLast?.map fun e => resolveColor scheme e.color).toList } ∧
    (notifyAppearance scheme (runOps ops)).crashed = false ∧
    (notifyAppState scheme (runOps ops)).crashed = false ∧
    (notifyAppearance scheme (runOps ops)).updatePending = (runOps ops).updatePending ∧
    (notifyAppState scheme (runOps ops)).updatePending = (runOps ops).updatePending := by
  have hinv := stateInv_run ops
  have hne : (runOps ops).propsStack ≠ [] := hinv.appearOk.mp hl
  have hsome : (runOps ops).propsStack.getLast?.isSome = true :=
    (List.getLast?_isSome).mpr hne
  obtain ⟨y, hy⟩ := Option.isSome_iff_exists.mp hsome
  have hl2 : (runOps ops).appStateListener = true := hinv.stateOk.mpr hne
  have hA : notifyAppearance scheme (runOps ops) =
      { runOps ops with calls := (runOps ops).calls ++
          ((runOps ops).propsStack.getLast?.map fun e => resolveColor scheme e.color).toList } := by
    unfold notifyAppearance
    rw [hy]
    simp [hl]
  have hS : notifyAppState scheme (runOps ops) =
      { runOps ops with calls := (runOps ops).calls ++
          ((runOps ops).propsStack.getLast?.map fun e => resolveColor scheme e.color).toList } := by
    unfold notifyAppState
    rw [hy]
    simp [hl2]
  refine ⟨hne, hsome, hA, hS, ?_, ?_, ?_, ?_⟩
  · rw [hA]
    exact hinv.crashOk
  · rw [hS]
    exact hinv.crashOk
  · rw [hA]
  · rw [hS]

/-- Witness for C8: after one push the listeners are held; a dark-theme
notification fires and applies the top entry immediately. -/
theorem C8_notification_applies_top_witness :
    ((runOps [Op.push (ColorReq.themed (some "#fff") (some "#000"))]).appearanceListener
        = true) ∧
    ((runOps [Op.push (ColorReq.themed (some "#fff") (some "#000"))]).propsStack ≠ [] ∧
      (runOps [Op.push (ColorReq.themed (some "#fff")
          (some "#000"))]).propsStack.getLast?.isSome = true ∧
      notifyAppearance ColorScheme.dark
          (runOps [Op.push (ColorReq.themed (some "#fff") (some "#000"))]) =
        { runOps [Op.push (ColorReq.themed (some "#fff") (some "#000"))] with
            calls := (runOps [Op.push (ColorReq.themed (some "#fff") (some "#000"))]).calls ++
              ((runOps [Op.push (ColorReq.themed (some "#fff")
                  (some "#000"))]).propsStack.getLast?.map
                fun e => resolveColor ColorScheme.dark e.color).toList } ∧
      notifyAppState ColorScheme.dark
          (runOps [Op.push (ColorReq.themed (some "#fff") (some "#000"))]) =
        { runOps [Op.push (ColorReq.themed (some "#fff") (some "#000"))] with
            calls := (runOps [Op.push (ColorReq.themed (some "#fff") (some "#000"))]).calls ++
              ((runOps [Op.push (ColorReq.themed (some "#fff")
                  (some "#000"))]).propsStack.getLast?.map
                fun e => resolveColor ColorScheme.dark e.color).toList } ∧
      (notifyAppearance ColorScheme.dark
          (runOps [Op.push (ColorReq.themed (some "#fff") (some "#000"))])).crashed = false ∧
      (notifyAppState ColorScheme.dark
          (runOps [Op.push (ColorReq.themed (some "#fff") (some "#000"))])).crashed = false ∧
      (notifyAppearance ColorScheme.dark
          (runOps [Op.push (ColorReq.themed (some "#fff") (some "#000"))])).updatePending =
        (runOps [Op.push (ColorReq.themed (some "#fff") (some "#000"))]).updatePending ∧
      (notifyAppState ColorScheme.dark
          (runOps [Op.push (ColorReq.themed (some "#fff") (some "#000"))])).updatePending =
        (runOps [Op.push (ColorReq.themed (some "#fff") (some "#000"))]).updatePending) :=
  ⟨by decide,
    C8_notification_applies_top [Op.push (ColorReq.themed (some "#fff") (some "#000"))]
      ColorScheme.dark (by decide)⟩
